import Mathlib

/-
Shallow embedding of src/PLUGIN.py, a hand-tracking-to-OSC control pipeline.
Python floats are modelled as exact rationals.  The response-shaping stage
(resp_curve, a real power x ** gamma, lines 30 and 79-80 of the source) runs
upstream of the fragment embedded here, so a tick carries the already-shaped
normalized pair (nx, ny) in place of the raw camera coordinates; everything
from the range mapping (lines 83-84) through the transmission gate
(lines 95-111) is embedded below, together with the module constants
(lines 12-20) and the helper functions (lines 27-35).
-/

/-- Source line 27: `lerp(a, b, t) = a + (b - a) * t`. -/
def lerp (a b t : ℚ) : ℚ := a + (b - a) * t

/-- Source line 28: `clamp01(x) = max(0.0, min(1.0, x))`. -/
def clamp01 (x : ℚ) : ℚ := max 0 (min 1 x)

/-- Source line 29: `ema(prev, new, a) = a*new + (1-a)*prev if prev is not None else new`. -/
def ema (prev : Option ℚ) (new a : ℚ) : ℚ :=
  match prev with
  | some p => a * new + (1 - a) * p
  | none => new

/-- Python's built-in `round`: round half to even (banker's rounding),
modelled on exact rationals. -/
def pyRound (q : ℚ) : ℤ :=
  if q - (⌊q⌋ : ℚ) < 1/2 then ⌊q⌋
  else if 1/2 < q - (⌊q⌋ : ℚ) then ⌊q⌋ + 1
  else if ⌊q⌋ % 2 = 0 then ⌊q⌋ else ⌊q⌋ + 1

/-- Source line 31: `quantize(v, step) = round(v / step) * step`. -/
def quantize (v step : ℚ) : ℚ := (pyRound (v / step) : ℚ) * step

/-- Source lines 33-35: `within_deadzone(prev, cur, rmin, rmax, dz_frac)`. -/
def within_deadzone (prev : Option ℚ) (cur rmin rmax dz_frac : ℚ) : Bool :=
  match prev with
  | none => false
  | some p => decide (|cur - p| < dz_frac * (rmax - rmin))

/-- Configuration surface of src/PLUGIN.py, lines 12-20.  One record so that
claims can also quantify over invalid configurations. -/
structure Config where
  SIZE_RANGE : ℚ × ℚ
  DECAY_RANGE : ℚ × ℚ
  SMOOTH_ALPHA : ℚ
  DEADZONE_NORM : ℚ
  STEP_SIZE : ℚ
  STEP_DECAY : ℚ
  MAX_UPS : ℚ
  deriving DecidableEq

/-- The concrete constants of src/PLUGIN.py lines 12-20. -/
def CONFIG : Config :=
  ⟨(10, 100), (4/5, 49/50), 12/100, 2/100, 1/2, 3/1000, 30⟩

/-- The constants of src/PLUGIN.py with `SIZE_RANGE` replaced by the invalid
range `(100, 10)` (min >= max); used to probe configuration validation. -/
def CONFIG_BAD : Config :=
  ⟨(100, 10), (4/5, 49/50), 12/100, 2/100, 1/2, 3/1000, 30⟩

/-- Cross-tick state of the loop, source lines 53-57:
`sm_size = None`, `sm_decay = None`, `last_tx_time = 0.0`,
`last_sent_size = None`, `last_sent_decay = None`. -/
structure PipelineState where
  sm_size : Option ℚ
  sm_decay : Option ℚ
  last_tx_time : ℚ
  last_sent_size : Option ℚ
  last_sent_decay : Option ℚ
  deriving DecidableEq

/-- Source lines 53-57: the state created at startup.  Note `last_tx_time`
is the plain number `0.0`, not an absent value. -/
def PipelineState.init : PipelineState := ⟨none, none, 0, none, none⟩

/-- Source line 96: the rate-limit test `now - last_tx_time >= 1.0 / MAX_UPS`. -/
def rateEligible (last_tx now ups : ℚ) : Bool :=
  decide (1/ups ≤ now - last_tx)

/-- Source line 83: `size_target = lerp(SIZE_RANGE[0], SIZE_RANGE[1], nx)`. -/
def size_target (cfg : Config) (nx : ℚ) : ℚ :=
  lerp cfg.SIZE_RANGE.1 cfg.SIZE_RANGE.2 nx

/-- Source line 84: `decay_target = lerp(DECAY_RANGE[0], DECAY_RANGE[1], ny)`. -/
def decay_target (cfg : Config) (ny : ℚ) : ℚ :=
  lerp cfg.DECAY_RANGE.1 cfg.DECAY_RANGE.2 ny

/-- Source line 87: `sm_size = ema(sm_size, size_target, SMOOTH_ALPHA)`. -/
def sm_size_next (cfg : Config) (s : PipelineState) (nx : ℚ) : ℚ :=
  ema s.sm_size (size_target cfg nx) cfg.SMOOTH_ALPHA

/-- Source line 88: `sm_decay = ema(sm_decay, decay_target, SMOOTH_ALPHA)`. -/
def sm_decay_next (cfg : Config) (s : PipelineState) (ny : ℚ) : ℚ :=
  ema s.sm_decay (decay_target cfg ny) cfg.SMOOTH_ALPHA

/-- Source line 91: `cand_size = quantize(sm_size, STEP_SIZE)`. -/
def cand_size (cfg : Config) (s : PipelineState) (nx : ℚ) : ℚ :=
  quantize (sm_size_next cfg s nx) cfg.STEP_SIZE

/-- Source line 92: `cand_decay = quantize(sm_decay, STEP_DECAY)`. -/
def cand_decay (cfg : Config) (s : PipelineState) (ny : ℚ) : ℚ :=
  quantize (sm_decay_next cfg s ny) cfg.STEP_DECAY

/-- Source lines 97-98: `send_size = not within_deadzone(last_sent_size,
cand_size, *SIZE_RANGE, DEADZONE_NORM)`. -/
def send_size (cfg : Config) (s : PipelineState) (nx : ℚ) : Bool :=
  ! within_deadzone s.last_sent_size (cand_size cfg s nx)
      cfg.SIZE_RANGE.1 cfg.SIZE_RANGE.2 cfg.DEADZONE_NORM

/-- Source lines 99-100: `send_decay = not within_deadzone(last_sent_decay,
cand_decay, *DECAY_RANGE, DEADZONE_NORM)`. -/
def send_decay (cfg : Config) (s : PipelineState) (ny : ℚ) : Bool :=
  ! within_deadzone s.last_sent_decay (cand_decay cfg s ny)
      cfg.DECAY_RANGE.1 cfg.DECAY_RANGE.2 cfg.DEADZONE_NORM

/-- One loop iteration of `main`, source lines 71-111.  The tick input is
`none` on a detection miss (line 71 skips the whole block) and
`some (nx, ny)` when a hand is detected, where `(nx, ny)` is the shaped
normalized pair of lines 79-80.  The result is the updated state together
with the payloads of the `/size` and `/decay` messages, `none` when the
corresponding channel does not transmit. -/
def tickStep (cfg : Config) (s : PipelineState) (now : ℚ) :
    Option (ℚ × ℚ) → PipelineState × (Option ℚ × Option ℚ)
  | none => (s, (none, none))
  | some (nx, ny) =>
    if rateEligible s.last_tx_time now cfg.MAX_UPS then
      (⟨some (sm_size_next cfg s nx), some (sm_decay_next cfg s ny),
        if send_size cfg s nx || send_decay cfg s ny then now else s.last_tx_time,
        if send_size cfg s nx then some (cand_size cfg s nx) else s.last_sent_size,
        if send_decay cfg s ny then some (cand_decay cfg s ny) else s.last_sent_decay⟩,
       (if send_size cfg s nx then some (cand_size cfg s nx) else none,
        if send_decay cfg s ny then some (cand_decay cfg s ny) else none))
    else
      (⟨some (sm_size_next cfg s nx), some (sm_decay_next cfg s ny),
        s.last_tx_time, s.last_sent_size, s.last_sent_decay⟩, (none, none))

/-- A tick result counts as one transmission event when at least one of the
two channels sent (source line 109: `if send_size or send_decay`). -/
def sentTick (r : PipelineState × (Option ℚ × Option ℚ)) : Bool :=
  r.2.1.isSome || r.2.2.isSome

/-- Run the loop over a list of ticks, each a `now` timestamp paired with the
tick input.  Returns the final state and the `now` timestamps of all
transmission events, in order. -/
def runTicks (cfg : Config) : PipelineState → List (ℚ × Option (ℚ × ℚ)) →
    PipelineState × List ℚ
  | s, [] => (s, [])
  | s, tk :: rest =>
    let r := tickStep cfg s tk.1 tk.2
    let rr := runTicks cfg r.1 rest
    (rr.1, (if sentTick r then [tk.1] else []) ++ rr.2)

/-- Iterate the smoother of one channel over a list of targets, starting from
an optional previous smoothed state (source line 29 applied per tick as in
lines 87-88). -/
def runEma (a : ℚ) : Option ℚ → List ℚ → Option ℚ
  | st, [] => st
  | st, t :: rest => runEma a (some (ema st t a)) rest

/-- A concrete steady state: both channels smoothed at mid values already
sent, with a transmission stamped at time 1. -/
def stateC5 : PipelineState := ⟨some 55, some (9/10), 1, some 55, some (9/10)⟩

/-- A concrete tick schedule: three detections at times 1, 61/60 and 2. -/
def ticksC4 : List (ℚ × Option (ℚ × ℚ)) :=
  [(1, some (1/2, 5/9)), (61/60, some (1/2, 5/9)), (2, some (1/2, 5/9))]

/-- On an integer, Python's round is the identity. -/
theorem pyRound_intCast (k : ℤ) : pyRound (k : ℚ) = k := by
  simp [pyRound]

/-- Evaluation rule: a rational strictly below the midpoint rounds down. -/
theorem pyRound_eq_of_lt_half (q : ℚ) (z : ℤ) (h0 : (z : ℚ) ≤ q)
    (h1 : q < (z : ℚ) + 1/2) : pyRound q = z := by
  have hf : ⌊q⌋ = z := Int.floor_eq_iff.mpr ⟨h0, by linarith⟩
  simp only [pyRound, hf]
  rw [if_pos (by linarith)]

/-- Evaluation rule: a rational strictly above the midpoint rounds up. -/
theorem pyRound_eq_of_half_lt (q : ℚ) (z : ℤ) (h0 : (z : ℚ) + 1/2 < q)
    (h1 : q < (z : ℚ) + 1) : pyRound q = z + 1 := by
  have hf : ⌊q⌋ = z := Int.floor_eq_iff.mpr ⟨by linarith, by linarith⟩
  simp only [pyRound, hf]
  rw [if_neg (by linarith), if_pos (by linarith)]

/-- Evaluation rule: an exact half rounds to the even neighbour. -/
theorem pyRound_add_half (z : ℤ) :
    pyRound ((z : ℚ) + 1/2) = if z % 2 = 0 then z else z + 1 := by
  have hf : ⌊(z : ℚ) + 1/2⌋ = z := by
    rw [Int.floor_int_add]
    norm_num
  have hr : (z : ℚ) + 1/2 - (z : ℚ) = 1/2 := by ring
  simp only [pyRound, hf, hr]
  norm_num

/-- Evaluation rule for the quantizer when the quotient rounds down. -/
theorem quantize_eq_of_lt_half (v s : ℚ) (z : ℤ) (h0 : (z : ℚ) ≤ v / s)
    (h1 : v / s < (z : ℚ) + 1/2) : quantize v s = (z : ℚ) * s := by
  unfold quantize
  rw [pyRound_eq_of_lt_half _ z h0 h1]

/-- Evaluation rule for the quantizer when the quotient rounds up. -/
theorem quantize_eq_of_half_lt (v s : ℚ) (z : ℤ) (h0 : (z : ℚ) + 1/2 < v / s)
    (h1 : v / s < (z : ℚ) + 1) : quantize v s = ((z : ℚ) + 1) * s := by
  unfold quantize
  rw [pyRound_eq_of_half_lt _ z h0 h1]
  push_cast
  ring

/-- Claim C9: the quantizer is idempotent: for every value `x` and every step
`s > 0`, `quantize (quantize x s) s = quantize x s`, where
`quantize v s = round (v / s) * s`. -/
theorem C9_quantize_idempotent (x s : ℚ) (hs : 0 < s) :
    quantize (quantize x s) s = quantize x s := by
  unfold quantize
  rw [mul_div_cancel_right₀ _ (ne_of_gt hs), pyRound_intCast]

/-- Witness for C9 at `x = 1/3`, `s = 1/2`. -/
theorem C9_quantize_idempotent_witness :
    0 < (1/2 : ℚ) ∧ quantize (quantize (1/3) (1/2)) (1/2) = quantize (1/3) (1/2) :=
  ⟨by norm_num, C9_quantize_idempotent (1/3) (1/2) (by norm_num)⟩

/-- Claim C10: the quantizer resolves exact .5 boundary cases by rounding half
to even (the semantics of Python's built-in `round`): when `v/step` sits exactly
halfway between two integers, `quantize` snaps to the even multiple of `step`;
in particular `quantize 0.25 0.5 = 0` and `quantize 0.75 0.5 = 1`. -/
theorem C10_round_half_to_even :
    (∀ k : ℤ, pyRound ((k : ℚ) + 1/2) = if k % 2 = 0 then k else k + 1) ∧
    quantize (1/4) (1/2) = 0 ∧ quantize (3/4) (1/2) = 1 := by
  refine ⟨pyRound_add_half, ?_, ?_⟩
  · unfold quantize
    have h : (1/4 : ℚ) / (1/2) = ((0 : ℤ) : ℚ) + 1/2 := by norm_num
    rw [h, pyRound_add_half]
    norm_num
  · unfold quantize
    have h : (3/4 : ℚ) / (1/2) = ((1 : ℤ) : ℚ) + 1/2 := by norm_num
    rw [h, pyRound_add_half]
    norm_num

/-- Suppression test unfolded: a candidate is within the dead zone iff the
previous sent value exists and the candidate is closer to it than the
configured fraction of the range width. -/
theorem within_deadzone_iff (prev : Option ℚ) (cur rmin rmax dz : ℚ) :
    within_deadzone prev cur rmin rmax dz = true ↔
      ∃ p, prev = some p ∧ |cur - p| < dz * (rmax - rmin) := by
  cases prev <;> simp [within_deadzone]

/-- A tick that transmits was rate-eligible and stamps `last_tx_time := now`
(source lines 96 and 109-110). -/
theorem tickStep_tx_of_sent (cfg : Config) (s : PipelineState) (now : ℚ)
    (inp : Option (ℚ × ℚ)) (h : sentTick (tickStep cfg s now inp) = true) :
    1/cfg.MAX_UPS ≤ now - s.last_tx_time ∧
    (tickStep cfg s now inp).1.last_tx_time = now := by
  match inp with
  | none => simp [tickStep, sentTick] at h
  | some (nx, ny) =>
    cases he : rateEligible s.last_tx_time now cfg.MAX_UPS with
    | false => simp [tickStep, sentTick, he] at h
    | true =>
      refine ⟨of_decide_eq_true he, ?_⟩
      cases hs : send_size cfg s nx <;> cases hd : send_decay cfg s ny <;>
        simp [tickStep, sentTick, he, hs, hd] at h ⊢

/-- A tick that does not transmit leaves `last_tx_time` unchanged
(source lines 109-110: the stamp happens only under
`if send_size or send_decay`). -/
theorem tickStep_tx_of_not_sent (cfg : Config) (s : PipelineState) (now : ℚ)
    (inp : Option (ℚ × ℚ)) (h : sentTick (tickStep cfg s now inp) = false) :
    (tickStep cfg s now inp).1.last_tx_time = s.last_tx_time := by
  match inp with
  | none => simp [tickStep]
  | some (nx, ny) =>
    cases he : rateEligible s.last_tx_time now cfg.MAX_UPS with
    | false => simp [tickStep, he]
    | true =>
      cases hs : send_size cfg s nx <;> cases hd : send_decay cfg s ny <;>
        simp [tickStep, sentTick, he, hs, hd] at h ⊢

/-- Claim C1, counterexample: in the start state no transmission has ever
occurred (`last_sent_size` and `last_sent_decay` are still `None`), yet the
tick arriving at `now = 0` is not rate-eligible and nothing is transmitted,
because `last_tx_time` is initialized to the plain number `0.0` rather than
an absent value.  This refutes "every tick that arrives before any
transmission has ever occurred is rate-eligible regardless of the value of
`now`". -/
theorem C1_counterexample :
    PipelineState.init.last_sent_size = none ∧
    PipelineState.init.last_sent_decay = none ∧
    rateEligible PipelineState.init.last_tx_time 0 CONFIG.MAX_UPS = false ∧
    (tickStep CONFIG PipelineState.init 0 (some (1/2, 5/9))).2 = (none, none) := by
  have he : rateEligible PipelineState.init.last_tx_time 0 CONFIG.MAX_UPS = false := by
    simp only [rateEligible, PipelineState.init, CONFIG, decide_eq_false_iff_not]
    norm_num
  exact ⟨rfl, rfl, he, by simp [tickStep, he]⟩

/-- Claim C1 as amended: the gate keeps `last_tx_time` as a plain number
initialized to `0.0` (never an absent value), and a tick is rate-eligible
iff `now - last_tx_time >= 1/MAX_UPS`; a tick failing this test transmits
nothing and leaves `last_tx_time`, `last_sent_size` and `last_sent_decay`
unchanged.  In particular a tick before any transmission is rate-eligible
iff `now >= 1/MAX_UPS`, not regardless of `now`. -/
theorem C1_gate_sentinel (cfg : Config) (s : PipelineState) (now : ℚ)
    (inp : Option (ℚ × ℚ)) (h : ¬ (1/cfg.MAX_UPS ≤ now - s.last_tx_time)) :
    (rateEligible s.last_tx_time now cfg.MAX_UPS = true
        ↔ 1/cfg.MAX_UPS ≤ now - s.last_tx_time) ∧
    PipelineState.init.last_tx_time = 0 ∧
    (tickStep cfg s now inp).2 = (none, none) ∧
    (tickStep cfg s now inp).1.last_tx_time = s.last_tx_time ∧
    (tickStep cfg s now inp).1.last_sent_size = s.last_sent_size ∧
    (tickStep cfg s now inp).1.last_sent_decay = s.last_sent_decay := by
  have he : rateEligible s.last_tx_time now cfg.MAX_UPS = false := by
    simp only [rateEligible, decide_eq_false_iff_not]
    exact h
  refine ⟨by simp [rateEligible], rfl, ?_, ?_, ?_, ?_⟩ <;>
    · match inp with
      | none => simp [tickStep]
      | some (nx, ny) => simp [tickStep, he]

/-- Witness for C1_gate_sentinel at the initial state with `now = 0`. -/
theorem C1_gate_sentinel_witness :
    (¬ (1/CONFIG.MAX_UPS ≤ (0 : ℚ) - PipelineState.init.last_tx_time)) ∧
    ((rateEligible PipelineState.init.last_tx_time 0 CONFIG.MAX_UPS = true
        ↔ 1/CONFIG.MAX_UPS ≤ (0 : ℚ) - PipelineState.init.last_tx_time) ∧
    PipelineState.init.last_tx_time = 0 ∧
    (tickStep CONFIG PipelineState.init 0 (some (1/3, 1/3))).2 = (none, none) ∧
    (tickStep CONFIG PipelineState.init 0 (some (1/3, 1/3))).1.last_tx_time
        = PipelineState.init.last_tx_time ∧
    (tickStep CONFIG PipelineState.init 0 (some (1/3, 1/3))).1.last_sent_size
        = PipelineState.init.last_sent_size ∧
    (tickStep CONFIG PipelineState.init 0 (some (1/3, 1/3))).1.last_sent_decay
        = PipelineState.init.last_sent_decay) :=
  ⟨by norm_num [CONFIG, PipelineState.init],
   C1_gate_sentinel CONFIG PipelineState.init 0 (some (1/3, 1/3))
     (by norm_num [CONFIG, PipelineState.init])⟩

/-- Claim C2: the code performs no configuration validation at all.  Under
the invalid configuration `SIZE_RANGE = (100, 10)` (min >= max) the per-tick
computation proceeds exactly as under a valid one: the first detected tick at
`now = 1` is processed and transmits `/size 55.0`.  This contradicts
"configuration misuse is rejected eagerly at initialization, before any tick
is processed; no per-tick computation is ever performed under an invalid
configuration". -/
theorem C2_no_config_validation :
    CONFIG_BAD.SIZE_RANGE.2 ≤ CONFIG_BAD.SIZE_RANGE.1 ∧
    (tickStep CONFIG_BAD PipelineState.init 1 (some (1/2, 5/9))).2.1 = some 55 ∧
    (tickStep CONFIG_BAD PipelineState.init 1 (some (1/2, 5/9))).1.last_sent_size
        = some 55 := by
  have he : rateEligible PipelineState.init.last_tx_time 1 CONFIG_BAD.MAX_UPS = true := by
    simp only [rateEligible, PipelineState.init, CONFIG_BAD, decide_eq_true_eq]
    norm_num
  have hsm : sm_size_next CONFIG_BAD PipelineState.init 2⁻¹ = 55 := by
    simp only [sm_size_next, size_target, lerp, ema, CONFIG_BAD, PipelineState.init]
    norm_num
  have hcand : cand_size CONFIG_BAD PipelineState.init 2⁻¹ = 55 := by
    have hq : cand_size CONFIG_BAD PipelineState.init 2⁻¹ = quantize 55 (1/2) := by
      simp only [cand_size, hsm]
      rfl
    rw [hq, quantize_eq_of_lt_half 55 (1/2) 110 (by norm_num) (by norm_num)]
    norm_num
  have hsend : send_size CONFIG_BAD PipelineState.init 2⁻¹ = true := by
    simp [send_size, within_deadzone, PipelineState.init]
  refine ⟨by norm_num [CONFIG_BAD], ?_, ?_⟩ <;>
    simp [tickStep, he, hsend, hcand]

/-- Claim C3: on a rate-eligible tick, per channel independently, the
quantized candidate is suppressed iff the channel's last sent value exists
and the candidate is within the dead zone of it; a channel with no last sent
value is never suppressed; a non-suppressed candidate is transmitted and
recorded in the last sent value.  The first conjunct is the spec's concrete
case: `deadzoneFraction = 0.02`, range `(10, 100)` of width 90, candidate
`56.5` after last sent `55.0` is suppressed (`1.5 < 1.8`). -/
theorem C3_deadzone_gate (cfg : Config) (s : PipelineState) (now nx ny : ℚ)
    (helig : rateEligible s.last_tx_time now cfg.MAX_UPS = true) :
    within_deadzone (some 55) (113/2) 10 100 (2/100) = true ∧
    (∀ (prev : Option ℚ) (cur rmin rmax dz : ℚ),
      within_deadzone prev cur rmin rmax dz = true ↔
        ∃ p, prev = some p ∧ |cur - p| < dz * (rmax - rmin)) ∧
    (s.last_sent_size = none →
      (tickStep cfg s now (some (nx, ny))).2.1 = some (cand_size cfg s nx) ∧
      (tickStep cfg s now (some (nx, ny))).1.last_sent_size
          = some (cand_size cfg s nx)) ∧
    (within_deadzone s.last_sent_size (cand_size cfg s nx)
        cfg.SIZE_RANGE.1 cfg.SIZE_RANGE.2 cfg.DEADZONE_NORM = false →
      (tickStep cfg s now (some (nx, ny))).2.1 = some (cand_size cfg s nx) ∧
      (tickStep cfg s now (some (nx, ny))).1.last_sent_size
          = some (cand_size cfg s nx)) ∧
    (within_deadzone s.last_sent_size (cand_size cfg s nx)
        cfg.SIZE_RANGE.1 cfg.SIZE_RANGE.2 cfg.DEADZONE_NORM = true →
      (tickStep cfg s now (some (nx, ny))).2.1 = none ∧
      (tickStep cfg s now (some (nx, ny))).1.last_sent_size = s.last_sent_size) ∧
    (s.last_sent_decay = none →
      (tickStep cfg s now (some (nx, ny))).2.2 = some (cand_decay cfg s ny) ∧
      (tickStep cfg s now (some (nx, ny))).1.last_sent_decay
          = some (cand_decay cfg s ny)) ∧
    (within_deadzone s.last_sent_decay (cand_decay cfg s ny)
        cfg.DECAY_RANGE.1 cfg.DECAY_RANGE.2 cfg.DEADZONE_NORM = false →
      (tickStep cfg s now (some (nx, ny))).2.2 = some (cand_decay cfg s ny) ∧
      (tickStep cfg s now (some (nx, ny))).1.last_sent_decay
          = some (cand_decay cfg s ny)) ∧
    (within_deadzone s.last_sent_decay (cand_decay cfg s ny)
        cfg.DECAY_RANGE.1 cfg.DECAY_RANGE.2 cfg.DEADZONE_NORM = true →
      (tickStep cfg s now (some (nx, ny))).2.2 = none ∧
      (tickStep cfg s now (some (nx, ny))).1.last_sent_decay
          = s.last_sent_decay) := by
  refine ⟨?_, within_deadzone_iff, ?_, ?_, ?_, ?_, ?_, ?_⟩
  · simp only [within_deadzone, decide_eq_true_eq]
    rw [abs_of_nonneg (by norm_num)]
    norm_num
  · intro h
    have hsz : send_size cfg s nx = true := by
      simp [send_size, within_deadzone, h]
    simp [tickStep, helig, hsz]
  · intro h
    have hsz : send_size cfg s nx = true := by
      simp [send_size, h]
    simp [tickStep, helig, hsz]
  · intro h
    have hsz : send_size cfg s nx = false := by
      simp [send_size, h]
    simp [tickStep, helig, hsz]
  · intro h
    have hdz : send_decay cfg s ny = true := by
      simp [send_decay, within_deadzone, h]
    simp [tickStep, helig, hdz]
  · intro h
    have hdz : send_decay cfg s ny = true := by
      simp [send_decay, h]
    simp [tickStep, helig, hdz]
  · intro h
    have hdz : send_decay cfg s ny = false := by
      simp [send_decay, h]
    simp [tickStep, helig, hdz]

/-- Witness for C3_deadzone_gate: the initial state at `now = 1` is
rate-eligible, and the spec's concrete suppression case holds. -/
theorem C3_deadzone_gate_witness :
    rateEligible PipelineState.init.last_tx_time 1 CONFIG.MAX_UPS = true ∧
    within_deadzone (some 55) (113/2) 10 100 (2/100) = true :=
  ⟨by simp only [rateEligible, PipelineState.init, CONFIG, decide_eq_true_eq]; norm_num,
   (C3_deadzone_gate CONFIG PipelineState.init 1 (1/2) (5/9)
     (by simp only [rateEligible, PipelineState.init, CONFIG, decide_eq_true_eq];
         norm_num)).1⟩

/-- Claim C5: on a rate-eligible tick where both channels are suppressed by
their dead-zone tests, no message is emitted and `last_tx_time`,
`last_sent_size` and `last_sent_decay` are all left unchanged; and in
general `last_tx_time` is stamped with `now` exactly when at least one
channel transmits. -/
theorem C5_both_suppressed (cfg : Config) (s : PipelineState) (now nx ny : ℚ)
    (helig : rateEligible s.last_tx_time now cfg.MAX_UPS = true)
    (hs : within_deadzone s.last_sent_size (cand_size cfg s nx)
        cfg.SIZE_RANGE.1 cfg.SIZE_RANGE.2 cfg.DEADZONE_NORM = true)
    (hd : within_deadzone s.last_sent_decay (cand_decay cfg s ny)
        cfg.DECAY_RANGE.1 cfg.DECAY_RANGE.2 cfg.DEADZONE_NORM = true) :
    (tickStep cfg s now (some (nx, ny))).2 = (none, none) ∧
    (tickStep cfg s now (some (nx, ny))).1.last_tx_time = s.last_tx_time ∧
    (tickStep cfg s now (some (nx, ny))).1.last_sent_size = s.last_sent_size ∧
    (tickStep cfg s now (some (nx, ny))).1.last_sent_decay = s.last_sent_decay ∧
    (∀ (cfg2 : Config) (s2 : PipelineState) (now2 : ℚ) (inp2 : Option (ℚ × ℚ)),
      sentTick (tickStep cfg2 s2 now2 inp2) = true →
      (tickStep cfg2 s2 now2 inp2).1.last_tx_time = now2) := by
  have hss : send_size cfg s nx = false := by simp [send_size, hs]
  have hdd : send_decay cfg s ny = false := by simp [send_decay, hd]
  refine ⟨?_, ?_, ?_, ?_,
    fun cfg2 s2 now2 inp2 h => (tickStep_tx_of_sent cfg2 s2 now2 inp2 h).2⟩ <;>
    simp [tickStep, helig, hss, hdd]

/-- Witness for C5_both_suppressed: in `stateC5` at `now = 2` with the hand
held still, both candidates re-quantize to the already sent values and both
channels are suppressed. -/
theorem C5_both_suppressed_witness :
    rateEligible stateC5.last_tx_time 2 CONFIG.MAX_UPS = true ∧
    within_deadzone stateC5.last_sent_size (cand_size CONFIG stateC5 (1/2))
        CONFIG.SIZE_RANGE.1 CONFIG.SIZE_RANGE.2 CONFIG.DEADZONE_NORM = true ∧
    within_deadzone stateC5.last_sent_decay (cand_decay CONFIG stateC5 (5/9))
        CONFIG.DECAY_RANGE.1 CONFIG.DECAY_RANGE.2 CONFIG.DEADZONE_NORM = true ∧
    (tickStep CONFIG stateC5 2 (some (1/2, 5/9))).2 = (none, none) := by
  have helig : rateEligible stateC5.last_tx_time 2 CONFIG.MAX_UPS = true := by
    simp only [rateEligible, stateC5, CONFIG, decide_eq_true_eq]
    norm_num
  have hsm : sm_size_next CONFIG stateC5 (1/2) = 55 := by
    simp only [sm_size_next, size_target, lerp, ema, stateC5, CONFIG]
    norm_num
  have hcs : cand_size CONFIG stateC5 (1/2) = 55 := by
    have hq : cand_size CONFIG stateC5 (1/2) = quantize 55 (1/2) := by
      simp only [cand_size, hsm]
      rfl
    rw [hq, quantize_eq_of_lt_half 55 (1/2) 110 (by norm_num) (by norm_num)]
    norm_num
  have hsmd : sm_decay_next CONFIG stateC5 (5/9) = 9/10 := by
    simp only [sm_decay_next, decay_target, lerp, ema, stateC5, CONFIG]
    norm_num
  have hcd : cand_decay CONFIG stateC5 (5/9) = 9/10 := by
    have hq : cand_decay CONFIG stateC5 (5/9) = quantize (9/10) (3/1000) := by
      simp only [cand_decay, hsmd]
      rfl
    rw [hq, quantize_eq_of_lt_half (9/10) (3/1000) 300 (by norm_num) (by norm_num)]
    norm_num
  have hs : within_deadzone stateC5.last_sent_size (cand_size CONFIG stateC5 (1/2))
      CONFIG.SIZE_RANGE.1 CONFIG.SIZE_RANGE.2 CONFIG.DEADZONE_NORM = true := by
    rw [hcs]
    simp only [stateC5, CONFIG, within_deadzone, decide_eq_true_eq]
    norm_num
  have hd : within_deadzone stateC5.last_sent_decay (cand_decay CONFIG stateC5 (5/9))
      CONFIG.DECAY_RANGE.1 CONFIG.DECAY_RANGE.2 CONFIG.DEADZONE_NORM = true := by
    rw [hcd]
    simp only [stateC5, CONFIG, within_deadzone, decide_eq_true_eq]
    norm_num
  exact ⟨helig, hs, hd,
    (C5_both_suppressed CONFIG stateC5 2 (1/2) (5/9) helig hs hd).1⟩

/-- Claim C6: the smoother satisfies exactly the EMA recurrence: on the first
valid sample the smoothed state becomes the target; on every later sample it
becomes `alpha*target + (1-alpha)*smoothed`; the loop applies it with the
single shared `SMOOTH_ALPHA` to both channels on every detected tick, and
the deployed `SMOOTH_ALPHA = 0.12` lies in `(0, 1]`. -/
theorem C6_ema_recurrence :
    (∀ t a : ℚ, ema none t a = t) ∧
    (∀ p t a : ℚ, ema (some p) t a = a * t + (1 - a) * p) ∧
    (∀ (cfg : Config) (s : PipelineState) (now nx ny : ℚ),
      (tickStep cfg s now (some (nx, ny))).1.sm_size
          = some (ema s.sm_size (size_target cfg nx) cfg.SMOOTH_ALPHA) ∧
      (tickStep cfg s now (some (nx, ny))).1.sm_decay
          = some (ema s.sm_decay (decay_target cfg ny) cfg.SMOOTH_ALPHA)) ∧
    (0 < CONFIG.SMOOTH_ALPHA ∧ CONFIG.SMOOTH_ALPHA ≤ 1) := by
  refine ⟨fun t a => rfl, fun p t a => rfl, fun cfg s now nx ny => ?_,
    by norm_num [CONFIG]⟩
  cases he : rateEligible s.last_tx_time now cfg.MAX_UPS <;>
    simp [tickStep, he, sm_size_next, sm_decay_next]

/-- Claim C7: a detection-miss tick changes nothing: the state passes through
untouched and nothing is transmitted; consequently inserting a `none` tick
anywhere in a schedule leaves the final state and the transmission record of
the run unchanged. -/
theorem C7_detection_miss (cfg : Config) (s : PipelineState) (now t : ℚ)
    (l1 l2 : List (ℚ × Option (ℚ × ℚ))) :
    tickStep cfg s now none = (s, (none, none)) ∧
    runTicks cfg s (l1 ++ (t, none) :: l2) = runTicks cfg s (l1 ++ l2) := by
  refine ⟨rfl, ?_⟩
  induction l1 generalizing s with
  | nil => simp [runTicks, tickStep, sentTick]
  | cons tk rest ih =>
    simp only [List.cons_append, runTicks, List.append_eq]
    rw [ih]

/-- Invariant of the run: every recorded transmission time is at least one
rate-limit interval after the starting `last_tx_time`, and the recorded
times are pairwise separated by at least one interval. -/
theorem runTicks_spacing (cfg : Config) (hu : 0 < cfg.MAX_UPS)
    (l : List (ℚ × Option (ℚ × ℚ))) : ∀ (s : PipelineState),
    (∀ t ∈ (runTicks cfg s l).2, s.last_tx_time + 1/cfg.MAX_UPS ≤ t) ∧
    List.Pairwise (fun a b => a + 1/cfg.MAX_UPS ≤ b) (runTicks cfg s l).2 := by
  have hpos : 0 ≤ 1/cfg.MAX_UPS := by positivity
  induction l with
  | nil =>
    intro s
    simp [runTicks]
  | cons tk rest ih =>
    intro s
    obtain ⟨ih1, ih2⟩ := ih (tickStep cfg s tk.1 tk.2).1
    cases hsent : sentTick (tickStep cfg s tk.1 tk.2) with
    | false =>
      have hlast := tickStep_tx_of_not_sent cfg s tk.1 tk.2 hsent
      rw [hlast] at ih1
      constructor
      · intro t ht
        simp only [runTicks, hsent] at ht
        simp at ht
        exact ih1 t ht
      · simp only [runTicks, hsent]
        simpa using ih2
    | true =>
      obtain ⟨helig, hlast⟩ := tickStep_tx_of_sent cfg s tk.1 tk.2 hsent
      rw [hlast] at ih1
      constructor
      · intro t ht
        simp only [runTicks, hsent] at ht
        simp at ht
        rcases ht with rfl | ht
        · linarith
        · have := ih1 t ht
          linarith
      · simp only [runTicks, hsent]
        simp only [if_true, List.singleton_append, List.pairwise_cons]
        exact ⟨ih1, ih2⟩

/-- Claim C4: in every run from the start state with non-decreasing tick
timestamps, the `now` timestamps of any two transmission events (a tick that
sends on both channels counts once) are at least `1/MAX_UPS` apart; and a
tick on which neither channel sends never updates `last_tx_time`, so
suppressed ticks do not delay the next transmission. -/
theorem C4_rate_limited (cfg : Config) (l : List (ℚ × Option (ℚ × ℚ)))
    (hu : 0 < cfg.MAX_UPS) (hmono : List.Chain' (· ≤ ·) (l.map Prod.fst)) :
    List.Pairwise (fun a b => a + 1/cfg.MAX_UPS ≤ b)
      (runTicks cfg PipelineState.init l).2 ∧
    (∀ (s : PipelineState) (now : ℚ) (inp : Option (ℚ × ℚ)),
      sentTick (tickStep cfg s now inp) = false →
      (tickStep cfg s now inp).1.last_tx_time = s.last_tx_time) :=
  ⟨(runTicks_spacing cfg hu l PipelineState.init).2,
   fun s now inp h => tickStep_tx_of_not_sent cfg s now inp h⟩

/-- Witness for C4_rate_limited on the three-tick schedule `ticksC4`, whose
timestamps 1, 61/60, 2 are non-decreasing. -/
theorem C4_rate_limited_witness :
    0 < CONFIG.MAX_UPS ∧
    List.Chain' (· ≤ ·) (ticksC4.map Prod.fst) ∧
    (List.Pairwise (fun a b => a + 1/CONFIG.MAX_UPS ≤ b)
        (runTicks CONFIG PipelineState.init ticksC4).2 ∧
    (∀ (s : PipelineState) (now : ℚ) (inp : Option (ℚ × ℚ)),
      sentTick (tickStep CONFIG s now inp) = false →
      (tickStep CONFIG s now inp).1.last_tx_time = s.last_tx_time)) :=
  ⟨by norm_num [CONFIG],
   by simp only [ticksC4, List.map]; norm_num [List.chain'_cons],
   C4_rate_limited CONFIG ticksC4 (by norm_num [CONFIG])
     (by simp only [ticksC4, List.map]; norm_num [List.chain'_cons])⟩

/-- Convexity of one EMA step, iterated: starting from a state inside
`[lo, hi]` and feeding only targets inside `[lo, hi]`, the smoothed value
stays inside `[lo, hi]` for any `alpha` in `[0, 1]`. -/
theorem runEma_mem_Icc (a : ℚ) (ha0 : 0 ≤ a) (ha1 : a ≤ 1) (lo hi : ℚ) :
    ∀ (l : List ℚ) (p : ℚ), lo ≤ p → p ≤ hi →
    (∀ x ∈ l, lo ≤ x ∧ x ≤ hi) →
    ∃ v, runEma a (some p) l = some v ∧ lo ≤ v ∧ v ≤ hi
  | [], p, hp0, hp1, _ => ⟨p, rfl, hp0, hp1⟩
  | t :: rest, p, hp0, hp1, hl => by
    have ht := hl t (List.mem_cons_self t rest)
    have hnext0 : lo ≤ a * t + (1 - a) * p := by nlinarith [ht.1]
    have hnext1 : a * t + (1 - a) * p ≤ hi := by nlinarith [ht.2]
    have hrest : ∀ x ∈ rest, lo ≤ x ∧ x ≤ hi :=
      fun x hx => hl x (List.mem_cons_of_mem t hx)
    simpa [runEma, ema] using
      runEma_mem_Icc a ha0 ha1 lo hi rest (a * t + (1 - a) * p) hnext0 hnext1 hrest

/-- Claim C8: once set, the smoothed state lies in the convex hull of all
targets ever fed to the channel's smoother: for any interval `[lo, hi]`
containing every fed target and any `alpha` in `(0, 1]`, the smoothed value
after any nonempty feed history lies in `[lo, hi]`. -/
theorem C8_ema_convex_hull (a : ℚ) (ha0 : 0 < a) (ha1 : a ≤ 1) (t0 : ℚ)
    (l : List ℚ) (lo hi : ℚ) (hb : ∀ x ∈ t0 :: l, lo ≤ x ∧ x ≤ hi) :
    ∃ v, runEma a none (t0 :: l) = some v ∧ lo ≤ v ∧ v ≤ hi := by
  have ht0 := hb t0 (List.mem_cons_self t0 l)
  have hrest : ∀ x ∈ l, lo ≤ x ∧ x ≤ hi :=
    fun x hx => hb x (List.mem_cons_of_mem t0 hx)
  simpa [runEma, ema] using
    runEma_mem_Icc a (le_of_lt ha0) ha1 lo hi l t0 ht0.1 ht0.2 hrest

/-- Witness for C8_ema_convex_hull: feed targets 1 then 3 with
`alpha = 1/2`; the smoothed value exists and stays in `[1, 3]`. -/
theorem C8_ema_convex_hull_witness :
    (0 : ℚ) < 1/2 ∧ (1/2 : ℚ) ≤ 1 ∧
    (∀ x ∈ [(1 : ℚ), 3], (1 : ℚ) ≤ x ∧ x ≤ 3) ∧
    (∃ v, runEma (1/2) none [(1 : ℚ), 3] = some v ∧ (1 : ℚ) ≤ v ∧ v ≤ 3) :=
  ⟨by norm_num, by norm_num,
   by intro x hx; simp only [List.mem_cons, List.not_mem_nil, or_false] at hx;
      rcases hx with rfl | rfl <;> norm_num,
   C8_ema_convex_hull (1/2) (by norm_num) (by norm_num) 1 [3] 1 3
     (by intro x hx; simp only [List.mem_cons, List.not_mem_nil, or_false] at hx;
         rcases hx with rfl | rfl <;> norm_num)⟩
